import Mathlib

/-!
Verification development for the sleepyband protocol implementation.

We give a shallow embedding of the packet codec (`packets.py`), the inbound
packet state machine, the protocol machine (`protocol_machine.py`) and the
BLE outbound fragmenter (`band.py`), and prove properties of the embedding.

Byte strings are modelled as `List Nat` (each element an octet value).
Python exceptions are modelled with an explicit error type; functions that
can raise return the error alongside (or instead of) their result.
-/

set_option maxRecDepth 100000

namespace Sleepyband

/-- Errors corresponding to the Python exceptions that the sources can raise:
`struct.error` (buffer of the wrong size for an unpack), the parser's
`InvalidMagicException` and `CRCMismatchException`, generic `ValueError`,
`TypeError` (constructing a hollow packet whose initializer lacks defaults),
`KeyError` (deleting a missing dict key) and `IndexError` (indexing an empty
list). -/
inductive PErr where
  | structError
  | invalidMagic
  | crcMismatch
  | valueError
  | typeError
  | keyError
  | indexError
deriving DecidableEq, Repr

/-- One bit step of the CRC-16/CCITT-FALSE loop in `_crc16` (`packets.py`):
the body of the `while m:` loop for a fixed data byte `b` and mask `m`. -/
def crc16Bit (b m s : Nat) : Nat :=
  let highBit : Bool := 0x8000 &&& s != 0
  let highBit : Bool := if b &&& m != 0 then !highBit else highBit
  let s := s <<< 1
  if highBit then s ^^^ 0x1021 else s

/-- One data byte of `_crc16`: the inner `while` loop runs the bit step for
masks 128, 64, ..., 1. -/
def crc16Byte (s b : Nat) : Nat :=
  [128, 64, 32, 16, 8, 4, 2, 1].foldl (fun s m => crc16Bit b m s) s

/-- CRC-16/CCITT-FALSE from `packets.py` (`_crc16`): iterate the byte step
over the buffer starting from the seed `s` (default `0xffff`), and mask the
result to 16 bits, exactly as the source's final `s & 0xffff`. -/
def _crc16 (buf : List Nat) (s : Nat := 0xffff) : Nat :=
  (buf.foldl crc16Byte s) &&& 0xffff

/-- Little-endian packing of a value into `w` bytes, as `struct.pack` does for
the fixed-width codes `H` (w = 2), `L` (w = 4) and `Q` (w = 8).  `struct.pack`
raises for an out-of-range value; this model masks each byte instead, and the
theorems below restrict to in-range field values, on which the two agree. -/
def leBytes : Nat → Nat → List Nat
  | 0, _ => []
  | w + 1, v => (v &&& 0xff) :: leBytes w (v >>> 8)

/-- Little-endian value of a byte string, as `struct.unpack` reads a
fixed-width little-endian field. -/
def leVal (bs : List Nat) : Nat :=
  bs.foldr (fun b acc => b + 256 * acc) 0

/-- Big-endian value of a byte string, as `struct.unpack` reads a
fixed-width big-endian (`>`) field. -/
def beVal (bs : List Nat) : Nat :=
  bs.foldl (fun acc b => 256 * acc + b) 0

/-- Container for the command packet header fields (`Header` in
`packets.py`): kind, timestamp, seqno, length, response and the crc
attribute. -/
structure Header where
  kind : Nat
  timestamp : Nat
  seqno : Nat
  length : Nat
  response : Nat
  crc : Nat
deriving DecidableEq, Repr

/-- Packet magic (`Header.MAGIC`). -/
def MAGIC : Nat := 0xBBBB

/-- Fields within their declared bit-widths, the domain on which
`struct.pack("<HHQLHLH", ...)` does not raise. -/
def Header.wf (h : Header) : Prop :=
  h.kind < 2 ^ 16 ∧ h.timestamp < 2 ^ 64 ∧ h.seqno < 2 ^ 32 ∧
    h.length < 2 ^ 16 ∧ h.response < 2 ^ 32

instance (h : Header) : Decidable h.wf := by
  unfold Header.wf; infer_instance

/-- The 24-byte buffer `struct.pack("<HHQLHLH", MAGIC, kind, timestamp,
seqno, length, response, 0)` built at the start of `Header.to_bytes`: the
packed header with a zeroed CRC slot. -/
def Header.zeroCrcBytes (h : Header) : List Nat :=
  leBytes 2 MAGIC ++ leBytes 2 h.kind ++ leBytes 8 h.timestamp ++
    leBytes 4 h.seqno ++ leBytes 2 h.length ++ leBytes 4 h.response ++ leBytes 2 0

/-- `Header.to_bytes(zero_crc, skip_crc_compute)`.  The Python method
returns the packed bytes and, as a side effect, may update the `crc`
attribute; we return the bytes together with the header as it stands after
the call. -/
def Header.to_bytes (h : Header) (zero_crc : Bool := false)
    (skip_crc_compute : Bool := false) : List Nat × Header :=
  let header := h.zeroCrcBytes
  if zero_crc then (header, h)
  else
    let h' := if skip_crc_compute then h else { h with crc := _crc16 header }
    (header.take 22 ++ leBytes 2 h'.crc, h')

/-- `Header.unpack_with_checks(buf, skip_crc_check)`: unpack the 24-byte
header (raising `struct.error` when fewer than 24 bytes are available),
check the magic, and unless `skip_crc_check` recompute the CRC over the
buffer truncated to the declared length with the CRC slot zeroed
(`buf[:22] + b"\x00\x00" + buf[24:buflen]`) and compare. -/
def Header.unpack_with_checks (buf : List Nat) (skip_crc_check : Bool := false) :
    Except PErr (Nat × Nat × Nat × Nat × Nat × Nat) :=
  if buf.length < 24 then .error .structError else
  let magic := leVal (buf.take 2)
  let kind := leVal ((buf.drop 2).take 2)
  let ts := leVal ((buf.drop 4).take 8)
  let seqno := leVal ((buf.drop 12).take 4)
  let buflen := leVal ((buf.drop 16).take 2)
  let response := leVal ((buf.drop 18).take 4)
  let crc := leVal ((buf.drop 22).take 2)
  if magic ≠ MAGIC then .error .invalidMagic else
  let bufp := buf.take 22 ++ [0, 0] ++ (buf.drop 24).take (buflen - 24)
  let crc_computed := _crc16 bufp
  if !skip_crc_check ∧ crc ≠ crc_computed then .error .crcMismatch
  else .ok (kind, ts, seqno, buflen, response, crc)

/-- `Header.peek_len(buf)`: the declared length, read without enforcing the
CRC. -/
def Header.peek_len (buf : List Nat) : Except PErr Nat :=
  match Header.unpack_with_checks buf true with
  | .error e => .error e
  | .ok (_, _, _, buflen, _, _) => .ok buflen

/-- `Header.from_bytes(buf)`: peek the length, unpack `buf[:l]` with the CRC
check, and build a `Header` whose `crc` attribute holds the parsed CRC. -/
def Header.from_bytes (buf : List Nat) : Except PErr Header :=
  match Header.peek_len buf with
  | .error e => .error e
  | .ok l =>
    match Header.unpack_with_checks (buf.take l) false with
    | .error e => .error e
    | .ok (kind, ts, seqno, buflen, response, crc) =>
      .ok ⟨kind, ts, seqno, buflen, response, crc⟩

/-- `BasePacket.to_bytes`: serialize the header with a zeroed CRC slot,
append the payload, CRC the concatenation, store the CRC in the header's
`crc` attribute (the side effect marked "TODO this feels wrong" in the
source) and splice it into bytes 22-23 of the result. -/
def BasePacket.to_bytes (h : Header) (payload : List Nat) : List Nat × Header :=
  let header_buf := (h.to_bytes true).1
  let crc_buf := header_buf ++ payload
  let crc := _crc16 crc_buf
  let h' := { h with crc := crc }
  (header_buf.take 22 ++ leBytes 2 crc ++ payload, h')

/-- The 24-byte buffer `struct.pack("<HHQLHLH", MAGIC, k, t, s, l, r, c)`,
right-associated for convenience in the slicing proofs.  `Header.zeroCrcBytes`
is this with `c = 0`, and the serialized header is this with `c` the stored
CRC. -/
def packedHeader (k t s l r c : Nat) : List Nat :=
  leBytes 2 MAGIC ++ (leBytes 2 k ++ (leBytes 8 t ++ (leBytes 4 s ++
    (leBytes 2 l ++ (leBytes 4 r ++ leBytes 2 c)))))

/-- The packet kinds with a registered packet class in `packets.py`, i.e.
the `COMMAND` values of the (transitive) subclasses of `BasePacket` that
`_find_packet_type_for_buf` can find: ACK, SESSION_START, SESSION_START_RES,
CONFIG, DEVICE_RESET, SEND_STORED_DATA, GET_TECHNICAL_STATUS, LEDS_CONTROL,
IS_DEVICE_PAIRED and IS_DEVICE_PAIRED_RES. -/
def registeredKinds : List Nat :=
  [0x00, 0x01, 0x02, 0x03, 0x0b, 0x10, 0x15, 0x23, 0x2a, 0x2b]

/-- The payload attributes each packet class carries after parsing, one
constructor per registered class. -/
inductive PayloadFields where
  | ack (orig_kind status unk_3_5 : Nat)
  | sessionStart (host_id mode_num : Nat) (version : List Nat)
  | sessionStartResp (config : List Nat)
  | configGet
  | deviceReset (value : Nat)
  | sendStoredData
  | technicalStatus
  | led (value : Nat)
  | isDevicePaired
  | isDevicePairedResp (value : Nat)
deriving DecidableEq, Repr

/-- Per-class `update_payload`: parse the payload slice into the class's
attributes.  Length mismatches raise as in Python: `struct.unpack` demands
an exact-size buffer (ACK: 5 bytes; IS_DEVICE_PAIRED_RES: the slice
`buf[2:4]` must hold 2 bytes, so at least 4; SESSION_START: `buf[:5]` must
hold 5 bytes) and `buf[0]` on an empty buffer raises `IndexError`
(LEDS_CONTROL and DEVICE_RESET). -/
def update_payload (kind : Nat) (buf : List Nat) : Except PErr PayloadFields :=
  if kind = 0x00 then
    match buf with
    | [a, b, c, d, e] => .ok (.ack (beVal [a, b]) c (beVal [d, e]))
    | _ => .error .structError
  else if kind = 0x01 then
    match buf with
    | a :: b :: c :: d :: e :: rest => .ok (.sessionStart (beVal [a, b, c, d]) e rest.dropLast)
    | _ => .error .structError
  else if kind = 0x02 then .ok (.sessionStartResp buf)
  else if kind = 0x03 then .ok .configGet
  else if kind = 0x0b then
    match buf with
    | v :: _ => .ok (.deviceReset v)
    | [] => .error .indexError
  else if kind = 0x10 then .ok .sendStoredData
  else if kind = 0x15 then .ok .technicalStatus
  else if kind = 0x23 then
    match buf with
    | v :: _ => .ok (.led v)
    | [] => .error .indexError
  else if kind = 0x2a then .ok .isDevicePaired
  else if kind = 0x2b then
    match buf with
    | _ :: _ :: c :: d :: _ => .ok (.isDevicePairedResp (beVal [c, d]))
    | _ => .error .structError
  else .error .valueError

/-- The `length` each class's `__init__` writes into the hollow header
(`BasePacket.from_bytes` constructs `cls(header.seqno, ...)`, whose
initializer sets its own canonical length rather than the parsed one):
ACK and IS_DEVICE_PAIRED_RES use 24+5, SESSION_START_RES 24+512,
LEDS_CONTROL and DEVICE_RESET 24+1, the payloadless classes 24. -/
def classLength (kind : Nat) : Nat :=
  if kind = 0x00 then 29
  else if kind = 0x02 then 536
  else if kind = 0x0b then 25
  else if kind = 0x23 then 25
  else if kind = 0x2b then 29
  else 24

/-- A parsed packet: the header the hollow constructor built (class kind,
parsed timestamp/seqno/response/crc, class-canonical length) plus the
payload attributes `update_payload` filled in. -/
structure Packet where
  header : Header
  fields : PayloadFields
deriving DecidableEq, Repr

/-- `BasePacket.from_bytes` for the class registered for `kind`: parse the
header, reject a kind mismatch (`ValueError`), construct the hollow
instance — `SessionStartPacket.__init__` has required positional arguments
`host_id, mode_num, version_string`, so hollow construction of kind 0x01
raises `TypeError` — and run `update_payload` on `buf[24:header.length]`. -/
def packetFromBytes (kind : Nat) (buf : List Nat) : Except PErr Packet :=
  match Header.from_bytes buf with
  | .error e => .error e
  | .ok h =>
    if h.kind ≠ kind then .error .valueError
    else if kind = 0x01 then .error .typeError
    else
      match update_payload kind ((buf.drop 24).take (h.length - 24)) with
      | .error e => .error e
      | .ok f =>
        .ok ⟨⟨kind, h.timestamp, h.seqno, classLength kind, h.response, h.crc⟩, f⟩

/-- The `while` loop of `PacketStateMachine._attempt_parse`: starting from
`parse_buf` (initially `bufs[0]`) with `n` buffers consumed, append queued
buffers while the accumulated bytes are fewer than `pktlen` and buffers
remain. -/
def accumulate (pktlen : Nat) : List Nat → Nat → List (List Nat) → List Nat × Nat
  | parseBuf, n, [] => (parseBuf, n)
  | parseBuf, n, b :: rest =>
    if parseBuf.length < pktlen then accumulate pktlen (parseBuf ++ b) (n + 1) rest
    else (parseBuf, n)

/-- `PacketStateMachine._attempt_parse`: peek the length from the first two
queued buffers, accumulate enough buffers, and parse.  Returns the packet
(or `none` for insufficient data or an unregistered kind) together with the
number of buffers to dequeue; errors model the exceptions the Python method
can raise (the caller catches only `InvalidMagicException`). -/
def attemptParse : List (List Nat) → Except PErr (Option Packet × Nat)
  | b0 :: b1 :: rest =>
    let header_buf := b0 ++ b1
    match Header.peek_len header_buf with
    | .error e => .error e
    | .ok pktlen =>
      let acc := accumulate pktlen b0 1 (b1 :: rest)
      let parse_buf := acc.1
      let n_used := acc.2
      if parse_buf.length < pktlen then .ok (none, 0)
      else
        match Header.from_bytes parse_buf with
        | .error e => .error e
        | .ok hdr =>
          if registeredKinds.contains hdr.kind then
            match packetFromBytes hdr.kind parse_buf with
            | .error e => .error e
            | .ok pkt => .ok (some pkt, n_used)
          else .ok (none, n_used)
  | _ => .error .indexError

/-- The `while len(self.bufs) > 1` loop of `PacketStateMachine.rx_buf`,
with explicit fuel (each continuing iteration removes at least one queued
buffer, so `bufs.length` is enough fuel).  Returns the final queue, the
packets handed to the callback, and the exception escaping `rx_buf`, if
any: `InvalidMagicException` is caught (pop one buffer and retry), every
other error propagates with the queue as it stood. -/
def rxLoop : Nat → List (List Nat) → List Packet → List (List Nat) × List Packet × Option PErr
  | 0, bufs, out => (bufs, out, none)
  | fuel + 1, bufs, out =>
    if bufs.length ≤ 1 then (bufs, out, none)
    else
      match attemptParse bufs with
      | .error .invalidMagic => rxLoop fuel (bufs.drop 1) out
      | .error e => (bufs, out, some e)
      | .ok (none, n) => (bufs.drop n, out, none)
      | .ok (some pkt, n) => rxLoop fuel (bufs.drop n) (out ++ [pkt])

/-- `PacketStateMachine.rx_buf(buf)`: append the buffer to the queue and run
the parse loop.  Returns the new queue, the packets emitted to `pkt_cb`,
and the exception that escapes to the caller, if any. -/
def rx_buf (bufs : List (List Nat)) (buf : List Nat) :
    List (List Nat) × List Packet × Option PErr :=
  let bufs := bufs ++ [buf]
  rxLoop bufs.length bufs []

/-- Feed a sequence of chunks to the parser one `rx_buf` call at a time,
collecting emitted packets; an escaping exception stops the feed (it would
unwind into the transport's event delivery). -/
def feedChunks : List (List Nat) → List (List Nat) → List Packet →
    List (List Nat) × List Packet × Option PErr
  | [], bufs, out => (bufs, out, none)
  | c :: cs, bufs, out =>
    match rx_buf bufs c with
    | (bufs', pkts, none) => feedChunks cs bufs' (out ++ pkts)
    | (bufs', pkts, some e) => (bufs', out ++ pkts, some e)

/-- Feed chunks to a freshly constructed `PacketStateMachine`. -/
def feedAll (chunks : List (List Nat)) : List (List Nat) × List Packet × Option PErr :=
  feedChunks chunks [] []

/-- The serialized IS_DEVICE_PAIRED request frame of the source's test
suite: hex `bbbb2a000000000000000000000000001800000000006444`, a complete
valid 24-byte frame (kind 0x2a, length 24, CRC 0x4464). -/
def idpFrame : List Nat :=
  [0xbb, 0xbb, 0x2a, 0, 0, 0, 0, 0, 0, 0, 0, 0, 0, 0, 0, 0,
   0x18, 0, 0, 0, 0, 0, 0x64, 0x44]

/-- `idpFrame` with its final CRC byte corrupted (0x44 changed to 0x45), so
the frame assembles completely but its CRC check fails. -/
def idpFrameBadCrc : List Nat :=
  [0xbb, 0xbb, 0x2a, 0, 0, 0, 0, 0, 0, 0, 0, 0, 0, 0, 0, 0,
   0x18, 0, 0, 0, 0, 0, 0x64, 0x45]

/-- Session states (the `SessionState` Enum of `protocol_machine.py`). -/
inductive SessionState where
  | NOT_STARTED
  | IDP_FAILED
  | IDP_PENDING
  | SS_FAILED
  | SS_PENDING
  | STARTED
deriving DecidableEq, Repr

/-- Connection states (the `ConnectionState` Enum of `protocol_machine.py`). -/
inductive ConnectionState where
  | DISCONNECTED
  | CONNECTING
  | CONNECTED
deriving DecidableEq, Repr

/-- Identity of a completion callback stored in the in-flight table: the
machine's own `handle_idp_ack`, the session-start NAK closure of
`handle_is_device_paired_res`, or a caller-supplied callback (tagged with a
number). -/
inductive CbId where
  | idpAck
  | ssNak
  | user (n : Nat)
deriving DecidableEq, Repr

/-- An outbound packet as the protocol machine constructs it: the
constructor arguments of the corresponding packet class, seqno first. -/
inductive TxPkt where
  | ack (seqno orig_kind status : Nat)
  | sessionStart (seqno host_id mode_num : Nat) (version : List Nat)
  | isDevicePaired (seqno : Nat)
  | led (seqno value : Nat)
  | deviceReset (seqno reason : Nat)
  | sendStoredData (seqno : Nat)
  /-- Modelled from the spec: `AcquisitionStartPacket` is referenced by
  `protocol_machine.py` but its class is not among the sources; only the
  seqno argument matters for the claims here. -/
  | acquisitionStart (seqno : Nat)
  /-- Modelled from the spec: `AcquisitionStopPacket`, as above. -/
  | acquisitionStop (seqno : Nat)
  /-- Modelled from the spec: `LogGetPacket` (spec kind 0x44 LOG_GET, payload
  `u32 offset, u32 length`); only the seqno argument matters here. -/
  | logGet (seqno offset length : Nat)
deriving DecidableEq, Repr

/-- The seqno the packet's header carries (first constructor argument of
every packet class). -/
def TxPkt.seqno : TxPkt → Nat
  | .ack s _ _ => s
  | .sessionStart s _ _ _ => s
  | .isDevicePaired s => s
  | .led s _ => s
  | .deviceReset s _ => s
  | .sendStoredData s => s
  | .acquisitionStart s => s
  | .acquisitionStop s => s
  | .logGet s _ _ => s

/-- Observable actions of the protocol machine: handing a packet to the BLE
layer (`self.ble_conn.enqueue`), a session-state change callback, and an
in-flight completion callback invocation. -/
inductive PMEvent where
  | tx (p : TxPkt)
  | stateChange (a b : SessionState)
  | invokeCb (cb : CbId) (seqno : Nat) (success : Bool) (response : Nat)
deriving DecidableEq, Repr

/-- The mutable state of `ProtocolMachine`. -/
structure PMState where
  connection_state : ConnectionState
  session_state : SessionState
  packets : List (Nat × TxPkt × Option CbId)
  seqno : Nat
  session_mode : Nat
  host_id : Nat
  version_str : List Nat
  datareq_packet_cb : Option CbId
  logreq_packet_cb : Option CbId
deriving DecidableEq, Repr

/-- The state `ProtocolMachine.__init__` builds (mode 0): seqno counter 1
("0 is reserved for IDP"), host id `0x1234`, version string `'9' + 13 NULs`. -/
def pmInit : PMState :=
  { connection_state := .DISCONNECTED
    session_state := .NOT_STARTED
    packets := []
    seqno := 1
    session_mode := 0
    host_id := 0x1234
    version_str := [0x39, 0, 0, 0, 0, 0, 0, 0, 0, 0, 0, 0, 0, 0]
    datareq_packet_cb := none
    logreq_packet_cb := none }

/-- Python dict lookup (`d[k]` as an Option, for `k in d` tests and
`d[k]`). -/
def dictGet? {α : Type} : List (Nat × α) → Nat → Option α
  | [], _ => none
  | (k, v) :: t, key => if k = key then some v else dictGet? t key

/-- Python `key in dict`. -/
def dictContains {α : Type} (d : List (Nat × α)) (k : Nat) : Bool :=
  (dictGet? d k).isSome

/-- Python `d[key] = val` (replace in place or append). -/
def dictSet {α : Type} : List (Nat × α) → Nat → α → List (Nat × α)
  | [], key, val => [(key, val)]
  | (k, v) :: t, key, val =>
    if k = key then (key, val) :: t else (k, v) :: dictSet t key val

/-- Python `del d[key]` for a key known to be present (the caller models
the `KeyError` of a missing key). -/
def dictDel {α : Type} : List (Nat × α) → Nat → List (Nat × α)
  | [], _ => []
  | (k, v) :: t, key => if k = key then t else (k, v) :: dictDel t key

/-- `ProtocolMachine._seqno`: return the counter and post-increment it. -/
def PMState.seqnoAlloc (st : PMState) : Nat × PMState :=
  (st.seqno, { st with seqno := st.seqno + 1 })

/-- `ProtocolMachine.update_session_state`: store the new state and fire the
session-state callback with `(old, new)`. -/
def PMState.update_session_state (st : PMState) (s : SessionState) : PMState × List PMEvent :=
  ({ st with session_state := s }, [.stateChange st.session_state s])

/-- `ProtocolMachine._enqueue`: hand the packet to the BLE layer and record
`packets[seqno] = (pkt, cb)` in the in-flight table. -/
def PMState.enqueuePM (st : PMState) (pkt : TxPkt) (cb : Option CbId) : PMState × List PMEvent :=
  ({ st with packets := dictSet st.packets pkt.seqno (pkt, cb) }, [.tx pkt])

/-- `ProtocolMachine.send_ack`: ACK the given inbound packet (echoing its
seqno and kind) with the given status, with no completion callback. -/
def PMState.send_ack (st : PMState) (pkt_seqno pkt_kind status : Nat) : PMState × List PMEvent :=
  st.enqueuePM (.ack pkt_seqno pkt_kind status) none

/-- `ProtocolMachine.handle_is_device_paired_res`: ACK the response with
status 0, then branch on `not pkt.is_paired()` — where `is_paired` is
`self.header.response != 0` (`packets.py`) — moving to SS_PENDING and
transmitting SESSION_START with a fresh seqno when the response field is
zero, and moving to IDP_FAILED when it is nonzero. -/
def PMState.handle_is_device_paired_res (st : PMState) (hdr : Header) :
    PMState × List PMEvent :=
  let r1 := st.send_ack hdr.seqno hdr.kind 0
  if hdr.response = 0 then
    let r2 := r1.1.update_session_state .SS_PENDING
    let s := r2.1.seqnoAlloc
    let r3 := s.2.enqueuePM
      (.sessionStart s.1 s.2.host_id s.2.session_mode s.2.version_str) (some .ssNak)
    (r3.1, r1.2 ++ r2.2 ++ r3.2)
  else
    let r2 := r1.1.update_session_state .IDP_FAILED
    (r2.1, r1.2 ++ r2.2)

/-- `ProtocolMachine.handle_ack`: invoke the registered callback (if one is
present for the seqno) with `(seqno, status == 0, header.response)`; then
run `if seqno: del self.packets[seqno]` — an unconditional delete for every
nonzero seqno, which raises `KeyError` when the seqno has no in-flight
entry. -/
def PMState.handle_ack (st : PMState) (seqno status response : Nat) :
    PMState × List PMEvent × Option PErr :=
  let evs :=
    match dictGet? st.packets seqno with
    | some (_, some cb) => [PMEvent.invokeCb cb seqno (decide (status = 0)) response]
    | _ => []
  if seqno = 0 then (st, evs, none)
  else if dictContains st.packets seqno then
    ({ st with packets := dictDel st.packets seqno }, evs, none)
  else (st, evs, some .keyError)

/-- `ProtocolMachine.set_led_value`: allocate a seqno, enqueue an LED
packet, return the seqno. -/
def PMState.set_led_value (st : PMState) (value : Nat) (cb : CbId) :
    Nat × PMState × List PMEvent :=
  let s := st.seqnoAlloc
  let r := s.2.enqueuePM (.led s.1 value) (some cb)
  (s.1, r.1, r.2)

/-- `ProtocolMachine.request_device_reset`. -/
def PMState.request_device_reset (st : PMState) (cb : CbId) (reason : Nat) :
    Nat × PMState × List PMEvent :=
  let s := st.seqnoAlloc
  let r := s.2.enqueuePM (.deviceReset s.1 reason) (some cb)
  (s.1, r.1, r.2)

/-- `ProtocolMachine.request_stored_data`. -/
def PMState.request_stored_data (st : PMState) (cb : CbId) :
    Nat × PMState × List PMEvent :=
  let s := st.seqnoAlloc
  let r := s.2.enqueuePM (.sendStoredData s.1) (some cb)
  (s.1, r.1, r.2)

/-- `ProtocolMachine.request_acquisition_start`: also installs the data
chunk subscriber. -/
def PMState.request_acquisition_start (st : PMState) (ack_cb chunk_cb : CbId) :
    Nat × PMState × List PMEvent :=
  let s := st.seqnoAlloc
  let st1 := { s.2 with datareq_packet_cb := some chunk_cb }
  let r := st1.enqueuePM (.acquisitionStart s.1) (some ack_cb)
  (s.1, r.1, r.2)

/-- `ProtocolMachine.request_acquisition_stop`. -/
def PMState.request_acquisition_stop (st : PMState) (cb : CbId) :
    Nat × PMState × List PMEvent :=
  let s := st.seqnoAlloc
  let r := s.2.enqueuePM (.acquisitionStop s.1) (some cb)
  (s.1, r.1, r.2)

/-- `ProtocolMachine.request_log_file`: also installs the log chunk
subscriber. -/
def PMState.request_log_file (st : PMState) (offset length : Nat) (ack_cb chunk_cb : CbId) :
    Nat × PMState × List PMEvent :=
  let s := st.seqnoAlloc
  let st1 := { s.2 with logreq_packet_cb := some chunk_cb }
  let r := st1.enqueuePM (.logGet s.1 offset length) (some ack_cb)
  (s.1, r.1, r.2)

/-- `ProtocolMachine.request_idp`: mark the connection CONNECTED, move to
IDP_PENDING, and enqueue `IsDevicePairedPacket(0)` — the literal seqno 0,
with no counter allocation — with `handle_idp_ack` as callback. -/
def PMState.request_idp (st : PMState) : PMState × List PMEvent :=
  let st1 := { st with connection_state := .CONNECTED }
  let r1 := st1.update_session_state .IDP_PENDING
  let r2 := r1.1.enqueuePM (.isDevicePaired 0) (some .idpAck)
  (r2.1, r1.2 ++ r2.2)

/-- A call into the protocol machine that can issue packets: the public
request methods, the bootstrap `request_idp`, and the IS_DEVICE_PAIRED_RESP
handler (the latter issues the session-start request). -/
inductive Req where
  | setLed (value : Nat) (cb : Nat)
  | devReset (reason : Nat) (cb : Nat)
  | storedData (cb : Nat)
  | acqStart (cb chunkCb : Nat)
  | acqStop (cb : Nat)
  | logFile (offset length cb chunkCb : Nat)
  | idp
  | idpResp (hdr : Header)
deriving DecidableEq, Repr

/-- Run one request against the machine; besides the successor state and
events, collect the seqnos `_seqno` handed out during the call (for the
public request methods, the value returned to the caller; for the
IS_DEVICE_PAIRED_RESP handler, the session-start seqno when one is
allocated). -/
def reqStep (st : PMState) : Req → PMState × List PMEvent × List Nat
  | .setLed v cb =>
    let r := st.set_led_value v (.user cb)
    (r.2.1, r.2.2, [r.1])
  | .devReset reason cb =>
    let r := st.request_device_reset (.user cb) reason
    (r.2.1, r.2.2, [r.1])
  | .storedData cb =>
    let r := st.request_stored_data (.user cb)
    (r.2.1, r.2.2, [r.1])
  | .acqStart cb ccb =>
    let r := st.request_acquisition_start (.user cb) (.user ccb)
    (r.2.1, r.2.2, [r.1])
  | .acqStop cb =>
    let r := st.request_acquisition_stop (.user cb)
    (r.2.1, r.2.2, [r.1])
  | .logFile o l cb ccb =>
    let r := st.request_log_file o l (.user cb) (.user ccb)
    (r.2.1, r.2.2, [r.1])
  | .idp =>
    let r := st.request_idp
    (r.1, r.2, [])
  | .idpResp hdr =>
    let r := st.handle_is_device_paired_res hdr
    (r.1, r.2, if hdr.response = 0 then [st.seqno] else [])

/-- Run a sequence of requests, concatenating events and handed-out
seqnos. -/
def runReqs : List Req → PMState → PMState × List PMEvent × List Nat
  | [], st => (st, [], [])
  | r :: rs, st =>
    let a := reqStep st r
    let b := runReqs rs a.1
    (b.1, a.2.1 ++ b.2.1, a.2.2 ++ b.2.2)

/-- Specification-side check for C9: a transmitted non-ACK packet may carry
seqno 0 only if it is the IS_DEVICE_PAIRED bootstrap request (ACKs echo the
device's seqno and are responses, not requests). -/
def seqnoZeroOnlyIdp : PMEvent → Bool
  | .tx p =>
    match p with
    | .ack _ _ _ => true
    | .isDevicePaired _ => true
    | _ => decide (p.seqno ≠ 0)
  | _ => true

/-- The mutable state of the `Band` fragmenter relevant to transmission:
the single-write-outstanding flag and the queue of `(chunk, seqno)`
slices. -/
structure BandState where
  write_pending : Bool
  write_buf : List (List Nat × Nat)
deriving DecidableEq, Repr

/-- Observable transport actions of the fragmenter: this handler's only
outward effect is `self.rx_char.write_value(buf)`. -/
inductive BandEvent where
  | write (chunk : List Nat)
deriving DecidableEq, Repr

/-- The 20-byte slicing loop of `Band.enqueue`
(`for i0 in range(0, len(buf), 20)`). -/
def sliceBuf (buf : List Nat) : List (List Nat) :=
  if buf = [] then []
  else buf.take 20 :: sliceBuf (buf.drop 20)
termination_by buf.length
decreasing_by
  rename_i h
  simp only [List.length_drop]
  cases buf with
  | nil => exact absurd rfl h
  | cons a as => simp only [List.length_cons]; omega

/-- `Band._attempt_transmit`: raise if a write is outstanding, otherwise
write the head slice (`write_buf[0][0]`, `IndexError` on an empty queue)
and mark a write pending. -/
def Band._attempt_transmit (st : BandState) : BandState × List BandEvent × Option PErr :=
  if st.write_pending then (st, [], some .valueError)
  else
    match st.write_buf with
    | [] => (st, [], some .indexError)
    | (buf, _) :: _ => ({ st with write_pending := true }, [.write buf], none)

/-- `Band.enqueue(pkt)` after `buf = pkt.to_bytes()`: append the ≤20-byte
slices of `buf`, each tagged with the packet's seqno, and start a write if
none is outstanding. -/
def Band.enqueue (st : BandState) (buf : List Nat) (seqno : Nat) :
    BandState × List BandEvent × Option PErr :=
  let st1 := { st with write_buf := st.write_buf ++ (sliceBuf buf).map (fun s => (s, seqno)) }
  if st1.write_pending then (st1, [], none)
  else Band._attempt_transmit st1

/-- `Band.characteristic_write_value_failed`: read the failing slice's
seqno from the queue head (`IndexError` when empty), pop slices from the
head while they bear that seqno, clear the pending flag, and if slices
remain attempt the next transmit. -/
def Band.characteristic_write_value_failed (st : BandState) :
    BandState × List BandEvent × Option PErr :=
  match st.write_buf with
  | [] => (st, [], some .indexError)
  | (_, seqno) :: _ =>
    let wb := st.write_buf.dropWhile (fun e => e.2 == seqno)
    let st1 : BandState := { write_pending := false, write_buf := wb }
    if wb.isEmpty then (st1, [], none)
    else Band._attempt_transmit st1

/-! ## Theorems -/

/-- C2: the CRC function with its default seed returns the six reference
values of the spec on the corresponding ASCII byte strings, and for every
buffer and every seed the result is a 16-bit integer. -/
theorem crc16_reference_vectors_and_range :
    _crc16 [] = 0xffff ∧
    _crc16 [0x61] = 0x9d77 ∧
    _crc16 [0x61, 0x61, 0x61, 0x61] = 0x4361 ∧
    _crc16 [0x62, 0x61, 0x61, 0x61] = 0xd8bd ∧
    _crc16 [0x62, 0x62, 0x62, 0x62, 0x62, 0x62] = 0xe70a ∧
    _crc16 [0x79, 0x6f, 0x75, 0x72, 0x20, 0x6d, 0x6f, 0x6d] = 0xf63b ∧
    ∀ buf s, _crc16 buf s < 65536 := by
  refine ⟨by decide, by decide, by decide, by decide, by decide, by decide, ?_⟩
  intro buf s
  have h : (buf.foldl crc16Byte s) &&& 0xffff ≤ 0xffff := Nat.and_le_right
  exact Nat.lt_succ_of_le h

theorem crc16_lt (buf : List Nat) (s : Nat) : _crc16 buf s < 2 ^ 16 := by
  have h : (buf.foldl crc16Byte s) &&& 0xffff ≤ 0xffff := Nat.and_le_right
  have := Nat.lt_succ_of_le h
  simpa [_crc16] using this

theorem leBytes_length (w : Nat) : ∀ v, (leBytes w v).length = w := by
  induction w with
  | zero => intro v; rfl
  | succ w ih => intro v; simp [leBytes, ih]

theorem leVal_leBytes (w : Nat) : ∀ v, v < 2 ^ (8 * w) → leVal (leBytes w v) = v := by
  induction w with
  | zero =>
    intro v h
    have hv : v = 0 := Nat.lt_one_iff.mp (by simpa using h)
    subst hv; rfl
  | succ w ih =>
    intro v h
    have h8 : v >>> 8 = v / 256 := by
      rw [Nat.shiftRight_eq_div_pow]
    have hand : v &&& 0xff = v % 256 := by
      have h255 : (0xff : Nat) = 2 ^ 8 - 1 := by norm_num
      rw [h255, Nat.and_pow_two_sub_one_eq_mod]
    have hlt : v / 256 < 2 ^ (8 * w) := by
      rw [Nat.div_lt_iff_lt_mul (by norm_num : (0:Nat) < 256)]
      calc v < 2 ^ (8 * (w + 1)) := h
        _ = 2 ^ (8 * w) * 256 := by rw [Nat.mul_succ, pow_add]; norm_num
    have hih := ih (v >>> 8) (h8 ▸ hlt)
    calc leVal (leBytes (w + 1) v) = (v &&& 0xff) + 256 * leVal (leBytes w (v >>> 8)) := rfl
      _ = v % 256 + 256 * (v / 256) := by rw [hand, hih, h8]
      _ = v := Nat.mod_add_div v 256

theorem zeroCrcBytes_eq_packed (h : Header) :
    h.zeroCrcBytes = packedHeader h.kind h.timestamp h.seqno h.length h.response 0 := by
  simp [Header.zeroCrcBytes, packedHeader]

theorem packedHeader_length (k t s l r c : Nat) :
    (packedHeader k t s l r c).length = 24 := by
  simp [packedHeader, leBytes_length]

theorem packedHeader_take22 (k t s l r c : Nat) :
    (packedHeader k t s l r c).take 22 =
      leBytes 2 MAGIC ++ (leBytes 2 k ++ (leBytes 8 t ++ (leBytes 4 s ++
        (leBytes 2 l ++ leBytes 4 r)))) := by
  have hB : packedHeader k t s l r c =
      (leBytes 2 MAGIC ++ (leBytes 2 k ++ (leBytes 8 t ++ (leBytes 4 s ++
        (leBytes 2 l ++ leBytes 4 r))))) ++ leBytes 2 c := by
    simp [packedHeader]
  rw [hB]
  exact List.take_left' (by simp [leBytes_length])

theorem packedHeader_take22_app (k t s l r c c' : Nat) :
    (packedHeader k t s l r c).take 22 ++ leBytes 2 c' = packedHeader k t s l r c' := by
  rw [packedHeader_take22]
  simp [packedHeader]

/-- Unpacking the packed header recovers the packed field values (and checks
the CRC slot contents against the CRC of the zero-slot buffer when asked
to). -/
theorem unpack_packedHeader (k t s l r c : Nat) (skip : Bool)
    (hk : k < 2 ^ 16) (ht : t < 2 ^ 64) (hs : s < 2 ^ 32) (hl : l < 2 ^ 16)
    (hr : r < 2 ^ 32) (hc : c < 2 ^ 16) :
    Header.unpack_with_checks (packedHeader k t s l r c) skip =
      if skip = false ∧ c ≠ _crc16 (packedHeader k t s l r 0) then .error .crcMismatch
      else .ok (k, t, s, l, r, c) := by
  have e1 : (leBytes 2 MAGIC).length = 2 := leBytes_length 2 MAGIC
  have e2 : (leBytes 2 k).length = 2 := leBytes_length 2 k
  have e3 : (leBytes 8 t).length = 8 := leBytes_length 8 t
  have e4 : (leBytes 4 s).length = 4 := leBytes_length 4 s
  have e5 : (leBytes 2 l).length = 2 := leBytes_length 2 l
  have e6 : (leBytes 4 r).length = 4 := leBytes_length 4 r
  have hd2 : (packedHeader k t s l r c).drop 2 =
      leBytes 2 k ++ (leBytes 8 t ++ (leBytes 4 s ++ (leBytes 2 l ++
        (leBytes 4 r ++ leBytes 2 c)))) := List.drop_left' e1
  have hd4 : (packedHeader k t s l r c).drop 4 =
      leBytes 8 t ++ (leBytes 4 s ++ (leBytes 2 l ++ (leBytes 4 r ++ leBytes 2 c))) := by
    have h4 : (4 : Nat) = 2 + 2 := by norm_num
    rw [h4, ← List.drop_drop, hd2]
    exact List.drop_left' e2
  have hd12 : (packedHeader k t s l r c).drop 12 =
      leBytes 4 s ++ (leBytes 2 l ++ (leBytes 4 r ++ leBytes 2 c)) := by
    have h12 : (12 : Nat) = 4 + 8 := by norm_num
    rw [h12, ← List.drop_drop, hd4]
    exact List.drop_left' e3
  have hd16 : (packedHeader k t s l r c).drop 16 =
      leBytes 2 l ++ (leBytes 4 r ++ leBytes 2 c) := by
    have h16 : (16 : Nat) = 12 + 4 := by norm_num
    rw [h16, ← List.drop_drop, hd12]
    exact List.drop_left' e4
  have hd18 : (packedHeader k t s l r c).drop 18 = leBytes 4 r ++ leBytes 2 c := by
    have h18 : (18 : Nat) = 16 + 2 := by norm_num
    rw [h18, ← List.drop_drop, hd16]
    exact List.drop_left' e5
  have hd22 : (packedHeader k t s l r c).drop 22 = leBytes 2 c := by
    have h22 : (22 : Nat) = 18 + 4 := by norm_num
    rw [h22, ← List.drop_drop, hd18]
    exact List.drop_left' e6
  have hd24 : (packedHeader k t s l r c).drop 24 = [] :=
    List.drop_of_length_le (le_of_eq (packedHeader_length k t s l r c))
  have hmagic : leVal ((packedHeader k t s l r c).take 2) = MAGIC := by
    have hm : (packedHeader k t s l r c).take 2 = leBytes 2 MAGIC := List.take_left' e1
    rw [hm]; exact leVal_leBytes 2 MAGIC (by norm_num [MAGIC])
  have hkind : leVal (((packedHeader k t s l r c).drop 2).take 2) = k := by
    rw [hd2, List.take_left' e2]; exact leVal_leBytes 2 k (by simpa using hk)
  have hts : leVal (((packedHeader k t s l r c).drop 4).take 8) = t := by
    rw [hd4, List.take_left' e3]; exact leVal_leBytes 8 t (by simpa using ht)
  have hsq : leVal (((packedHeader k t s l r c).drop 12).take 4) = s := by
    rw [hd12, List.take_left' e4]; exact leVal_leBytes 4 s (by simpa using hs)
  have hln : leVal (((packedHeader k t s l r c).drop 16).take 2) = l := by
    rw [hd16, List.take_left' e5]; exact leVal_leBytes 2 l (by simpa using hl)
  have hrs : leVal (((packedHeader k t s l r c).drop 18).take 4) = r := by
    rw [hd18, List.take_left' e6]; exact leVal_leBytes 4 r (by simpa using hr)
  have hcr : leVal (((packedHeader k t s l r c).drop 22).take 2) = c := by
    rw [hd22, List.take_of_length_le (le_of_eq (leBytes_length 2 c))]
    exact leVal_leBytes 2 c (by simpa using hc)
  have hbufp : (packedHeader k t s l r c).take 22 ++ [0, 0] ++
      ((packedHeader k t s l r c).drop 24).take (l - 24) = packedHeader k t s l r 0 := by
    rw [hd24]
    have hz : (leBytes 2 0 : List Nat) = [0, 0] := by decide
    rw [List.take_nil, List.append_nil, ← hz, packedHeader_take22_app]
  have hlen24 : ¬ (packedHeader k t s l r c).length < 24 := by
    rw [packedHeader_length]; omega
  unfold Header.unpack_with_checks
  simp only [hlen24, if_false, hmagic, hkind, hts, hsq, hln, hrs, hcr, hbufp]
  have hmm : ¬ (MAGIC ≠ MAGIC) := fun hne => hne rfl
  simp only [hmm, if_false]
  cases skip <;> simp

theorem unpack_packedHeader_skip (k t s l r c : Nat)
    (hk : k < 2 ^ 16) (ht : t < 2 ^ 64) (hs : s < 2 ^ 32) (hl : l < 2 ^ 16)
    (hr : r < 2 ^ 32) (hc : c < 2 ^ 16) :
    Header.unpack_with_checks (packedHeader k t s l r c) true = .ok (k, t, s, l, r, c) := by
  rw [unpack_packedHeader k t s l r c true hk ht hs hl hr hc]
  simp

theorem unpack_packedHeader_crc (k t s l r : Nat)
    (hk : k < 2 ^ 16) (ht : t < 2 ^ 64) (hs : s < 2 ^ 32) (hl : l < 2 ^ 16)
    (hr : r < 2 ^ 32) :
    Header.unpack_with_checks (packedHeader k t s l r (_crc16 (packedHeader k t s l r 0))) false =
      .ok (k, t, s, l, r, _crc16 (packedHeader k t s l r 0)) := by
  rw [unpack_packedHeader k t s l r _ false hk ht hs hl hr (crc16_lt _ _)]
  simp

theorem peek_len_eq (buf : List Nat) :
    Header.peek_len buf = match Header.unpack_with_checks buf true with
      | .error e => .error e
      | .ok (_, _, _, buflen, _, _) => .ok buflen := rfl

theorem from_bytes_eq (buf : List Nat) :
    Header.from_bytes buf = match Header.peek_len buf with
      | .error e => .error e
      | .ok l =>
        match Header.unpack_with_checks (buf.take l) false with
        | .error e => .error e
        | .ok (kind, ts, seqno, buflen, response, crc) =>
          .ok ⟨kind, ts, seqno, buflen, response, crc⟩ := rfl

theorem peek_len_packedHeader (k t s l r c : Nat)
    (hk : k < 2 ^ 16) (ht : t < 2 ^ 64) (hs : s < 2 ^ 32) (hl : l < 2 ^ 16)
    (hr : r < 2 ^ 32) (hc : c < 2 ^ 16) :
    Header.peek_len (packedHeader k t s l r c) = .ok l := by
  rw [peek_len_eq, unpack_packedHeader_skip k t s l r c hk ht hs hl hr hc]

theorem from_bytes_packedHeader (k t s l r : Nat)
    (hk : k < 2 ^ 16) (ht : t < 2 ^ 64) (hs : s < 2 ^ 32) (hl : l < 2 ^ 16)
    (hr : r < 2 ^ 32) (h24 : 24 ≤ l) :
    Header.from_bytes (packedHeader k t s l r (_crc16 (packedHeader k t s l r 0))) =
      .ok ⟨k, t, s, l, r, _crc16 (packedHeader k t s l r 0)⟩ := by
  rw [from_bytes_eq,
    peek_len_packedHeader k t s l r _ hk ht hs hl hr (crc16_lt _ _)]
  have htake : (packedHeader k t s l r (_crc16 (packedHeader k t s l r 0))).take l =
      packedHeader k t s l r (_crc16 (packedHeader k t s l r 0)) :=
    List.take_of_length_le (by rw [packedHeader_length]; omega)
  simp only [htake, unpack_packedHeader_crc k t s l r hk ht hs hl hr]

/-- Serializing a header with default arguments yields the packed header
with the CRC of the zero-slot buffer spliced into the CRC slot. -/
theorem to_bytes_eq_packed (h : Header) :
    (h.to_bytes).1 = packedHeader h.kind h.timestamp h.seqno h.length h.response
      (_crc16 h.zeroCrcBytes) := by
  unfold Header.to_bytes
  simp only [Bool.false_eq_true, if_false]
  rw [zeroCrcBytes_eq_packed]
  exact packedHeader_take22_app _ _ _ _ _ _ _

/-- C3 (amended: the declared length field must be at least 24): serializing
a header whose fields are within their declared widths and whose length
field is at least 24, then deserializing, yields a header with equal kind,
timestamp, seqno, length and response fields; deserialization succeeding
means the stored CRC passed the deserializer's CRC verification. -/
theorem header_roundtrip (h : Header) (hwf : h.wf) (h24 : 24 ≤ h.length) :
    Header.from_bytes (h.to_bytes).1 = .ok { h with crc := _crc16 h.zeroCrcBytes } := by
  obtain ⟨hk, ht, hs, hl, hr⟩ := hwf
  rw [to_bytes_eq_packed, zeroCrcBytes_eq_packed]
  exact from_bytes_packedHeader h.kind h.timestamp h.seqno h.length h.response
    hk ht hs hl hr h24

/-- Witness for C3: the IS_DEVICE_PAIRED header of the source's test suite
round-trips, with serialized CRC `0x4464`. -/
theorem header_roundtrip_witness :
    Header.from_bytes ((Header.to_bytes ⟨0x2a, 0, 0, 24, 0, 0⟩).1) =
      .ok ⟨0x2a, 0, 0, 24, 0, 0x4464⟩ := by
  have h := header_roundtrip ⟨0x2a, 0, 0, 24, 0, 0⟩ (by decide) (by decide)
  rw [h]
  rfl

/-- Counterexample for C3 as stated: with `length = 0` (a 16-bit value), the
serialized header fails to deserialize: `peek_len` reports length 0, and
unpacking the 0-byte truncation raises `struct.error` instead of returning a
header with equal fields. -/
theorem header_roundtrip_cex :
    Header.from_bytes ((Header.to_bytes ⟨0, 0, 0, 0, 0, 0⟩).1) = .error .structError := by
  rfl

/-! ### Parser lemmas -/

theorem unpack_short (buf : List Nat) (skip : Bool) (h : buf.length < 24) :
    Header.unpack_with_checks buf skip = .error .structError := by
  unfold Header.unpack_with_checks
  simp [h]

theorem unpack_invalid_magic (buf : List Nat) (skip : Bool) (h24 : ¬ buf.length < 24)
    (hm : leVal (buf.take 2) ≠ MAGIC) :
    Header.unpack_with_checks buf skip = .error .invalidMagic := by
  unfold Header.unpack_with_checks
  simp [h24, hm]

theorem peek_len_ge_24 (buf : List Nat) (n : Nat) (h : Header.peek_len buf = .ok n) :
    24 ≤ buf.length := by
  by_contra hlt
  rw [peek_len_eq, unpack_short buf true (by omega)] at h
  simp at h

theorem take24_take2 (X : List Nat) : (X.take 24).take 2 = X.take 2 := by
  rw [List.take_take]
  norm_num

theorem slice_of_take24 (E : List Nat) (m n : Nat) (h : m + n ≤ 24) :
    ((E.take 24).drop m).take n = (E.drop m).take n := by
  rw [List.take_drop, List.take_drop, List.take_take]
  have hmin : min (m + n) 24 = m + n := by omega
  rw [hmin]

theorem take_append_of_le {α : Type} (xs ys : List α) (n : Nat) (h : n ≤ xs.length) :
    (xs ++ ys).take n = xs.take n := by
  rw [List.take_append_eq_append_take]
  have h0 : n - xs.length = 0 := by omega
  rw [h0, List.take_zero, List.append_nil]

/-- Unpacking without the CRC check only reads the first 24 bytes of the
buffer (the CRC scratch buffer is computed but unused): two buffers of
length at least 24 with the same 24-byte prefix unpack identically. -/
theorem unpack_skip_take24 (E G : List Nat) (hE : 24 ≤ E.length) (hG : 24 ≤ G.length)
    (h : E.take 24 = G.take 24) :
    Header.unpack_with_checks E true = Header.unpack_with_checks G true := by
  have c1 : ¬ E.length < 24 := by omega
  have c2 : ¬ G.length < 24 := by omega
  have s2 : E.take 2 = G.take 2 := by rw [← take24_take2, h, take24_take2]
  have sl : ∀ m n, m + n ≤ 24 → (E.drop m).take n = (G.drop m).take n := by
    intro m n hmn
    rw [← slice_of_take24 E m n hmn, h, slice_of_take24 G m n hmn]
  unfold Header.unpack_with_checks
  simp only [c1, c2, if_false, s2, sl 2 2 (by omega), sl 4 8 (by omega),
    sl 12 4 (by omega), sl 16 2 (by omega), sl 18 4 (by omega), sl 22 2 (by omega)]
  simp only [Bool.not_true, Bool.false_eq_true, false_and, if_false]

theorem peek_len_take24 (E G : List Nat) (hE : 24 ≤ E.length) (hG : 24 ≤ G.length)
    (h : E.take 24 = G.take 24) :
    Header.peek_len E = Header.peek_len G := by
  rw [peek_len_eq, peek_len_eq, unpack_skip_take24 E G hE hG h]

/-- The accumulation loop of `_attempt_parse` consumes every queued buffer
when the bytes on hand do not exceed the packet length and each pending
buffer is nonempty. -/
theorem accumulate_all (pktlen : Nat) (rest : List (List Nat)) :
    ∀ (pb : List Nat) (n : Nat), pb.length + rest.flatten.length ≤ pktlen →
    (∀ c ∈ rest, c ≠ []) →
    accumulate pktlen pb n rest = (pb ++ rest.flatten, n + rest.length) := by
  induction rest with
  | nil => intro pb n hlen hne; simp [accumulate]
  | cons c cs ih =>
    intro pb n hlen hne
    have hc : c ≠ [] := hne c (by simp)
    have hclen : 1 ≤ c.length := by
      cases c with
      | nil => exact absurd rfl hc
      | cons a as => simp
    have hflat : (c :: cs).flatten.length = c.length + cs.flatten.length := by
      rw [List.flatten_cons, List.length_append]
    have hpb : pb.length < pktlen := by omega
    have harg : (pb ++ c).length + cs.flatten.length ≤ pktlen := by
      rw [List.length_append]; omega
    have hrec := ih (pb ++ c) (n + 1) harg (fun d hd => hne d (by simp [hd]))
    calc accumulate pktlen pb n (c :: cs) = accumulate pktlen (pb ++ c) (n + 1) cs := by
          simp [accumulate, hpb]
      _ = (pb ++ c ++ cs.flatten, n + 1 + cs.length) := hrec
      _ = (pb ++ (c :: cs).flatten, n + (c :: cs).length) := by
          simp only [Prod.mk.injEq, List.flatten_cons, List.length_cons]
          exact ⟨by rw [List.append_assoc], by omega⟩

theorem attemptParse_cons (b0 b1 : List Nat) (rest : List (List Nat)) :
    attemptParse (b0 :: b1 :: rest) =
      match Header.peek_len (b0 ++ b1) with
      | .error e => .error e
      | .ok pktlen =>
        if (accumulate pktlen b0 1 (b1 :: rest)).1.length < pktlen then .ok (none, 0)
        else
          match Header.from_bytes (accumulate pktlen b0 1 (b1 :: rest)).1 with
          | .error e => .error e
          | .ok hdr =>
            if registeredKinds.contains hdr.kind then
              match packetFromBytes hdr.kind (accumulate pktlen b0 1 (b1 :: rest)).1 with
              | .error e => .error e
              | .ok pkt => .ok (some pkt, (accumulate pktlen b0 1 (b1 :: rest)).2)
            else .ok (none, (accumulate pktlen b0 1 (b1 :: rest)).2) := rfl

/-- When the queue holds a proper prefix of a frame (more bytes still to
come), `_attempt_parse` reports insufficient data: `(None, 0)`. -/
theorem attemptParse_insufficient (F : List Nat) (c0 c1 : List Nat) (qs : List (List Nat))
    (T : List Nat)
    (hpeekF : Header.peek_len F = .ok F.length)
    (hpre : (c0 :: c1 :: qs).flatten ++ T = F)
    (h01 : 24 ≤ c0.length + c1.length)
    (hne : ∀ c ∈ c0 :: c1 :: qs, c ≠ [])
    (hlt : (c0 :: c1 :: qs).flatten.length < F.length) :
    attemptParse (c0 :: c1 :: qs) = .ok (none, 0) := by
  have hF24 : 24 ≤ F.length := peek_len_ge_24 F F.length hpeekF
  have h01' : 24 ≤ (c0 ++ c1).length := by rw [List.length_append]; exact h01
  have hQ : (c0 ++ c1) ++ (qs.flatten ++ T) = F := by
    rw [← hpre]; simp [List.append_assoc]
  have htake24 : (c0 ++ c1).take 24 = F.take 24 := by
    rw [← hQ, take_append_of_le _ _ 24 h01']
  have hpeek01 : Header.peek_len (c0 ++ c1) = .ok F.length := by
    rw [peek_len_take24 (c0 ++ c1) F h01' hF24 htake24, hpeekF]
  have hflat : c0 ++ (c1 :: qs).flatten = (c0 :: c1 :: qs).flatten :=
    (List.flatten_cons).symm
  have haccum := accumulate_all F.length (c1 :: qs) c0 1
    (by rw [show c0.length + (c1 :: qs).flatten.length = ((c0 :: c1 :: qs).flatten).length by
          rw [← hflat, List.length_append]]
        omega)
    (fun d hd => hne d (by simp [List.mem_cons] at hd ⊢; tauto))
  rw [attemptParse_cons, hpeek01]
  simp only [haccum, hflat]
  rw [if_pos hlt]

/-- When the queue holds exactly the bytes of a decodable frame,
`_attempt_parse` consumes every buffer and returns the decoded packet. -/
theorem attemptParse_complete (F : List Nat) (hdr : Header) (pkt : Packet)
    (c0 c1 : List Nat) (qs : List (List Nat))
    (hpeekF : Header.peek_len F = .ok F.length)
    (hhdr : Header.from_bytes F = .ok hdr)
    (hreg : registeredKinds.contains hdr.kind = true)
    (hpkt : packetFromBytes hdr.kind F = .ok pkt)
    (hjoin : (c0 :: c1 :: qs).flatten = F)
    (h01 : 24 ≤ c0.length + c1.length)
    (hne : ∀ c ∈ c0 :: c1 :: qs, c ≠ []) :
    attemptParse (c0 :: c1 :: qs) = .ok (some pkt, (c0 :: c1 :: qs).length) := by
  have hF24 : 24 ≤ F.length := peek_len_ge_24 F F.length hpeekF
  have h01' : 24 ≤ (c0 ++ c1).length := by rw [List.length_append]; exact h01
  have hQ : (c0 ++ c1) ++ qs.flatten = F := by
    rw [← hjoin]; simp [List.append_assoc]
  have htake24 : (c0 ++ c1).take 24 = F.take 24 := by
    rw [← hQ, take_append_of_le _ _ 24 h01']
  have hpeek01 : Header.peek_len (c0 ++ c1) = .ok F.length := by
    rw [peek_len_take24 (c0 ++ c1) F h01' hF24 htake24, hpeekF]
  have hflat : c0 ++ (c1 :: qs).flatten = (c0 :: c1 :: qs).flatten :=
    (List.flatten_cons).symm
  have hlenF : c0.length + (c1 :: qs).flatten.length = F.length := by
    rw [show c0.length + (c1 :: qs).flatten.length = ((c0 :: c1 :: qs).flatten).length by
      rw [← hflat, List.length_append]]
    rw [hjoin]
  have haccum := accumulate_all F.length (c1 :: qs) c0 1 (le_of_eq hlenF)
    (fun d hd => hne d (by simp [List.mem_cons] at hd ⊢; tauto))
  have hfull : c0 ++ (c1 :: qs).flatten = F := by rw [hflat, hjoin]
  rw [attemptParse_cons, hpeek01]
  simp only [haccum, hfull]
  rw [if_neg (by omega)]
  simp only [hhdr, hreg, if_true, hpkt]
  have hn : 1 + (c1 :: qs).length = (c0 :: c1 :: qs).length := by
    simp [List.length_cons]; omega
  rw [hn]

theorem rxLoop_succ (f : Nat) (bufs : List (List Nat)) (out : List Packet) :
    rxLoop (f + 1) bufs out =
      if bufs.length ≤ 1 then (bufs, out, none)
      else
        match attemptParse bufs with
        | .error .invalidMagic => rxLoop f (bufs.drop 1) out
        | .error e => (bufs, out, some e)
        | .ok (none, n) => (bufs.drop n, out, none)
        | .ok (some pkt, n) => rxLoop f (bufs.drop n) (out ++ [pkt]) := rfl

/-- One pass of the `rx_buf` loop when the parse attempt reports
insufficient data: the queue is left alone and the loop exits. -/
theorem rxLoop_insufficient (fuel : Nat) (bufs : List (List Nat)) (out : List Packet)
    (h2 : 2 ≤ bufs.length) (hf : 1 ≤ fuel)
    (hap : attemptParse bufs = .ok (none, 0)) :
    rxLoop fuel bufs out = (bufs, out, none) := by
  cases fuel with
  | zero => omega
  | succ f =>
    rw [rxLoop_succ, if_neg (by omega)]
    simp only [hap, List.drop_zero]

/-- One pass of the `rx_buf` loop when the parse attempt consumes the whole
queue and yields a packet: the packet is emitted and the loop exits on the
now-empty queue. -/
theorem rxLoop_emit (fuel : Nat) (bufs : List (List Nat)) (out : List Packet) (pkt : Packet)
    (h2 : 2 ≤ bufs.length) (hf : 2 ≤ fuel)
    (hap : attemptParse bufs = .ok (some pkt, bufs.length)) :
    rxLoop fuel bufs out = ([], out ++ [pkt], none) := by
  cases fuel with
  | zero => omega
  | succ f =>
    rw [rxLoop_succ, if_neg (by omega)]
    simp only [hap, List.drop_length]
    cases f with
    | zero => omega
    | succ f' => rw [rxLoop_succ, if_pos (by simp)]

theorem rx_buf_def (bufs : List (List Nat)) (buf : List Nat) :
    rx_buf bufs buf = rxLoop (bufs ++ [buf]).length (bufs ++ [buf]) [] := rfl

theorem rx_buf_single (c : List Nat) : rx_buf [] c = ([c], [], none) := rfl

theorem feedChunks_nil (bufs : List (List Nat)) (out : List Packet) :
    feedChunks [] bufs out = (bufs, out, none) := rfl

theorem feedChunks_cons (c : List Nat) (cs : List (List Nat)) (bufs : List (List Nat))
    (out : List Packet) :
    feedChunks (c :: cs) bufs out =
      match rx_buf bufs c with
      | (bufs', pkts, none) => feedChunks cs bufs' (out ++ pkts)
      | (bufs', pkts, some e) => (bufs', out ++ pkts, some e) := rfl

/-- Main induction for C4: with a frame already partially queued, feeding
the remaining chunks assembles and emits exactly the frame's packet. -/
theorem feed_frame_aux (F : List Nat) (hdr : Header) (pkt : Packet)
    (chunks : List (List Nat))
    (hpeek : Header.peek_len F = .ok F.length)
    (hhdr : Header.from_bytes F = .ok hdr)
    (hreg : registeredKinds.contains hdr.kind = true)
    (hpkt : packetFromBytes hdr.kind F = .ok pkt)
    (hjoin : chunks.flatten = F)
    (hne : ∀ c ∈ chunks, c ≠ [])
    (hfirst : 24 ≤ ((chunks.take 2).flatten).length) :
    ∀ (pending : List (List Nat)), ∀ (pre : List (List Nat)), chunks = pre ++ pending →
      1 ≤ pre.length → 1 ≤ pending.length →
      feedChunks pending pre [] = ([], [pkt], none) := by
  intro pending
  induction pending with
  | nil => intro pre hc h1 h2; simp at h2
  | cons c cs ih =>
    intro pre hchunks hpre _
    -- view the queue after appending `c` in head form
    obtain ⟨d0, ps, rfl⟩ : ∃ d0 ps, pre = d0 :: ps := by
      cases pre with
      | nil => simp at hpre
      | cons d0 ps => exact ⟨d0, ps, rfl⟩
    obtain ⟨d1, ds, hps⟩ : ∃ d1 ds, ps ++ [c] = d1 :: ds := by
      cases ps with
      | nil => exact ⟨c, [], rfl⟩
      | cons d1 ds' => exact ⟨d1, ds' ++ [c], rfl⟩
    have hqform : (d0 :: ps) ++ [c] = d0 :: d1 :: ds := by
      simp only [List.cons_append, hps]
    have hchunks' : chunks = (d0 :: d1 :: ds) ++ cs := by
      rw [hchunks, ← hqform]; simp [List.append_assoc]
    -- first-two-chunks byte count
    have h01 : 24 ≤ d0.length + d1.length := by
      have htk : chunks.take 2 = [d0, d1] := by rw [hchunks']; rfl
      rw [htk] at hfirst
      simpa using hfirst
    have hneq : ∀ x ∈ d0 :: d1 :: ds, x ≠ [] := by
      intro x hx
      exact hne x (by rw [hchunks']; exact List.mem_append_left _ hx)
    cases cs with
    | nil =>
      -- final chunk: the queue now holds the whole frame
      have hjq : (d0 :: d1 :: ds).flatten = F := by
        rw [← hjoin, hchunks']; simp
      have hap : attemptParse (d0 :: d1 :: ds) = .ok (some pkt, (d0 :: d1 :: ds).length) :=
        attemptParse_complete F hdr pkt d0 d1 ds hpeek hhdr hreg hpkt hjq h01 hneq
      have hrx : rx_buf (d0 :: ps) c = ([], [pkt], none) := by
        rw [rx_buf_def]
        have hq : (d0 :: ps) ++ [c] = d0 :: d1 :: ds := hqform
        rw [hq]
        exact rxLoop_emit _ _ _ pkt (by simp) (by simp) hap
      rw [feedChunks_cons, hrx]
      rfl
    | cons c2 cs' =>
      -- middle chunk: the queue still lacks bytes
      have hT : (d0 :: d1 :: ds).flatten ++ (c2 :: cs').flatten = F := by
        rw [← hjoin, hchunks']
        rw [List.flatten_append]
      have hc2ne : c2 ≠ [] := hne c2 (by rw [hchunks']; simp)
      have hlt : ((d0 :: d1 :: ds).flatten).length < F.length := by
        have := congrArg List.length hT
        rw [List.length_append] at this
        have hc2 : 1 ≤ ((c2 :: cs').flatten).length := by
          rw [List.flatten_cons, List.length_append]
          cases c2 with
          | nil => exact absurd rfl hc2ne
          | cons a as => rw [List.length_cons]; omega
        omega
      have hap : attemptParse (d0 :: d1 :: ds) = .ok (none, 0) :=
        attemptParse_insufficient F d0 d1 ds ((c2 :: cs').flatten) hpeek hT h01 hneq hlt
      have hrx : rx_buf (d0 :: ps) c = (d0 :: d1 :: ds, [], none) := by
        rw [rx_buf_def]
        have hq : (d0 :: ps) ++ [c] = d0 :: d1 :: ds := hqform
        rw [hq]
        exact rxLoop_insufficient _ _ _ (by simp) (by simp) hap
      rw [feedChunks_cons, hrx]
      have := ih (d0 :: d1 :: ds) (by rw [hchunks']) (by simp) (by simp)
      simpa using this

/-- Shared core of C4 and C6: feeding a valid frame's chunking from scratch
emits exactly the frame's packet. -/
theorem feed_frame_all (F : List Nat) (hdr : Header) (pkt : Packet)
    (chunks : List (List Nat))
    (hpeek : Header.peek_len F = .ok F.length)
    (hhdr : Header.from_bytes F = .ok hdr)
    (hreg : registeredKinds.contains hdr.kind = true)
    (hpkt : packetFromBytes hdr.kind F = .ok pkt)
    (hjoin : chunks.flatten = F)
    (hne : ∀ c ∈ chunks, c ≠ [])
    (hsz : ∀ c ∈ chunks, c.length ≤ 20)
    (hfirst : 24 ≤ ((chunks.take 2).flatten).length) :
    feedAll chunks = ([], [pkt], none) := by
  have hF24 : 24 ≤ F.length := peek_len_ge_24 F F.length hpeek
  cases chunks with
  | nil =>
    exfalso
    have : F = [] := by rw [← hjoin]; rfl
    rw [this] at hF24; simp at hF24
  | cons c rest =>
    cases rest with
    | nil =>
      exfalso
      have hFc : F.length = c.length := by
        rw [← hjoin]; simp
      have := hsz c (by simp)
      omega
    | cons c1 rest' =>
      show feedChunks (c :: c1 :: rest') [] [] = ([], [pkt], none)
      rw [feedChunks_cons, rx_buf_single]
      have := feed_frame_aux F hdr pkt (c :: c1 :: rest') hpeek hhdr hreg hpkt hjoin hne
        hfirst (c1 :: rest') [c] rfl (by simp) (by simp)
      simpa using this

/-- C4 (amended: the chunks must be nonempty, the first two chunks must
jointly hold the 24-byte header, and the frame's registered class must
accept the payload — the hypotheses `hhdr`/`hreg`/`hpkt` say the unsplit
frame decodes to `pkt`, and `hpeek` says the declared length equals the
frame's byte count): feeding any such chunking of a valid frame to a fresh
`PacketStateMachine` invokes the packet callback exactly once, with exactly
the packet decoded from the unsplit frame, leaves an empty queue and raises
nothing. -/
theorem parser_fragmentation (F : List Nat) (hdr : Header) (pkt : Packet)
    (chunks : List (List Nat))
    (hpeek : Header.peek_len F = .ok F.length)
    (hhdr : Header.from_bytes F = .ok hdr)
    (hreg : registeredKinds.contains hdr.kind = true)
    (hpkt : packetFromBytes hdr.kind F = .ok pkt)
    (hjoin : chunks.flatten = F)
    (hne : ∀ c ∈ chunks, c ≠ [])
    (hsz : ∀ c ∈ chunks, c.length ≤ 20)
    (hfirst : 24 ≤ ((chunks.take 2).flatten).length) :
    feedAll chunks = ([], [pkt], none) :=
  feed_frame_all F hdr pkt chunks hpeek hhdr hreg hpkt hjoin hne hsz hfirst

/-- Witness for C4: the test suite's IS_DEVICE_PAIRED frame split into a
20-byte chunk and a 4-byte chunk decodes to the IS_DEVICE_PAIRED packet. -/
theorem parser_fragmentation_witness :
    feedAll [idpFrame.take 20, idpFrame.drop 20] =
      ([], [⟨⟨0x2a, 0, 0, 24, 0, 0x4464⟩, .isDevicePaired⟩], none) :=
  parser_fragmentation idpFrame ⟨0x2a, 0, 0, 24, 0, 0x4464⟩
    ⟨⟨0x2a, 0, 0, 24, 0, 0x4464⟩, .isDevicePaired⟩
    [idpFrame.take 20, idpFrame.drop 20]
    (by rfl) (by rfl) (by rfl) (by rfl) (by rfl)
    (by decide) (by decide) (by decide)

/-- Counterexample for C4 as stated: the same valid frame split into chunks
of 10, 10 and 4 bytes (all at most 20 bytes) does not reach the callback at
all — on the second chunk the parser holds only 20 bytes, and
`struct.unpack` of the 24-byte header raises `struct.error`, which escapes
`rx_buf`; the callback is never invoked. -/
theorem parser_fragmentation_cex :
    feedAll [idpFrame.take 10, (idpFrame.drop 10).take 10, idpFrame.drop 20] =
      ([idpFrame.take 10, (idpFrame.drop 10).take 10], [], some .structError) := by
  rfl

/-- C5 evaluated at a failing input: a complete frame with a corrupted CRC,
split into a 20-byte and a 4-byte chunk.  `rx_buf` catches only
`InvalidMagicException`, so the `CRCMismatchException` raised while parsing
the assembled frame escapes to the caller (`some .crcMismatch`), and the
queue is NOT advanced past the frame — both chunks stay queued, so every
later `rx_buf` call re-raises (livelock), contrary to the claim. -/
theorem rx_buf_crc_mismatch_escapes :
    rx_buf [idpFrameBadCrc.take 20] (idpFrameBadCrc.drop 20) =
      ([idpFrameBadCrc.take 20, idpFrameBadCrc.drop 20], [], some .crcMismatch) := by
  rfl

/-- A junk buffer at the head of the queue (at least 2 bytes, not starting
with the magic) is popped by the `InvalidMagicException` handler of
`rx_buf`, and the loop then waits for more data. -/
theorem rx_buf_pop_junk (j c : List Nat) (hj2 : 2 ≤ j.length)
    (hmagic : leVal (j.take 2) ≠ MAGIC) (hlen : 24 ≤ j.length + c.length) :
    rx_buf [j] c = ([c], [], none) := by
  have hlen' : ¬ (j ++ c).length < 24 := by rw [List.length_append]; omega
  have hm2 : leVal ((j ++ c).take 2) ≠ MAGIC := by
    rw [take_append_of_le j c 2 hj2]; exact hmagic
  have hap : attemptParse [j, c] = .error .invalidMagic := by
    rw [attemptParse_cons, peek_len_eq, unpack_invalid_magic (j ++ c) true hlen' hm2]
  show rxLoop (1 + 1) [j, c] [] = ([c], [], none)
  rw [rxLoop_succ, if_neg (by simp)]
  simp only [hap, List.drop_succ_cons, List.drop_zero]
  show rxLoop (0 + 1) [c] [] = ([c], [], none)
  rw [rxLoop_succ, if_pos (by simp)]

/-- Junk-chain induction for C6: with one junk buffer queued, feeding the
remaining junk and then the frame chunks pops each junk buffer on an
invalid-magic parse attempt and finally emits exactly the frame's packet. -/
theorem feed_junk_chain (F : List Nat) (hdr : Header) (pkt : Packet)
    (chunks : List (List Nat))
    (hpeek : Header.peek_len F = .ok F.length)
    (hhdr : Header.from_bytes F = .ok hdr)
    (hreg : registeredKinds.contains hdr.kind = true)
    (hpkt : packetFromBytes hdr.kind F = .ok pkt)
    (hjoin : chunks.flatten = F)
    (hne : ∀ c ∈ chunks, c ≠ [])
    (hsz : ∀ c ∈ chunks, c.length ≤ 20)
    (hfirst : 24 ≤ ((chunks.take 2).flatten).length)
    (hc0 : 12 ≤ ((chunks.take 1).flatten).length) :
    ∀ (js : List (List Nat)) (j : List Nat),
      (∀ x ∈ j :: js, 12 ≤ x.length ∧ x.length ≤ 19 ∧ leVal (x.take 2) ≠ MAGIC) →
      feedChunks (js ++ chunks) [j] [] = ([], [pkt], none) := by
  have hF24 : 24 ≤ F.length := peek_len_ge_24 F F.length hpeek
  intro js
  induction js with
  | nil =>
    intro j hj
    obtain ⟨hj12, _, hjm⟩ := hj j (by simp)
    cases chunks with
    | nil =>
      exfalso
      have hF : F = [] := by rw [← hjoin]; rfl
      rw [hF] at hF24; simp at hF24
    | cons c0 rest =>
      cases rest with
      | nil =>
        exfalso
        have hFc : F.length = c0.length := by rw [← hjoin]; simp
        have := hsz c0 (by simp)
        omega
      | cons c1 rest' =>
        have hc0len : 12 ≤ c0.length := by
          have h1 : ((c0 :: c1 :: rest').take 1).flatten = c0 ++ [] := rfl
          rw [h1, List.append_nil] at hc0
          exact hc0
        show feedChunks (c0 :: c1 :: rest') [j] [] = ([], [pkt], none)
        rw [feedChunks_cons, rx_buf_pop_junk j c0 (by omega) hjm (by omega)]
        have := feed_frame_aux F hdr pkt (c0 :: c1 :: rest') hpeek hhdr hreg hpkt hjoin hne
          hfirst (c1 :: rest') [c0] rfl (by simp) (by simp)
        simpa using this
  | cons j2 js' ih =>
    intro j hj
    obtain ⟨hj12, _, hjm⟩ := hj j (by simp)
    obtain ⟨hj212, _, _⟩ := hj j2 (by simp)
    show feedChunks (j2 :: (js' ++ chunks)) [j] [] = ([], [pkt], none)
    rw [feedChunks_cons, rx_buf_pop_junk j j2 (by omega) hjm (by omega)]
    have := ih j2 (fun x hx => hj x (by simp [List.mem_cons] at hx ⊢; tauto))
    simpa using this

/-- C6 (amended: the junk chunks must be 12 to 19 bytes long — so that any
two adjacent queued buffers cover the 24-byte header that
`struct.unpack` demands — and the frame's first chunk at least 12 bytes, as
a 20-byte split gives): prepending any such junk chunks, none beginning
with the magic, to a valid frame's chunks makes the parser pop exactly one
junk buffer per invalid-magic attempt and finally emit exactly the one
frame packet. -/
theorem parser_resilience (F : List Nat) (hdr : Header) (pkt : Packet)
    (junk chunks : List (List Nat))
    (hpeek : Header.peek_len F = .ok F.length)
    (hhdr : Header.from_bytes F = .ok hdr)
    (hreg : registeredKinds.contains hdr.kind = true)
    (hpkt : packetFromBytes hdr.kind F = .ok pkt)
    (hjoin : chunks.flatten = F)
    (hne : ∀ c ∈ chunks, c ≠ [])
    (hsz : ∀ c ∈ chunks, c.length ≤ 20)
    (hfirst : 24 ≤ ((chunks.take 2).flatten).length)
    (hc0 : 12 ≤ ((chunks.take 1).flatten).length)
    (hjunk : ∀ x ∈ junk, 12 ≤ x.length ∧ x.length ≤ 19 ∧ leVal (x.take 2) ≠ MAGIC) :
    feedAll (junk ++ chunks) = ([], [pkt], none) := by
  cases junk with
  | nil =>
    simpa using feed_frame_all F hdr pkt chunks hpeek hhdr hreg hpkt hjoin hne hsz hfirst
  | cons j js =>
    show feedChunks (j :: (js ++ chunks)) [] [] = ([], [pkt], none)
    rw [feedChunks_cons, rx_buf_single]
    have := feed_junk_chain F hdr pkt chunks hpeek hhdr hreg hpkt hjoin hne hsz hfirst hc0
      js j hjunk
    simpa using this

/-- Witness for C6: two junk chunks of 12 and 13 bytes followed by the
IS_DEVICE_PAIRED frame in a 20-byte and a 4-byte chunk yield exactly the one
IS_DEVICE_PAIRED packet. -/
theorem parser_resilience_witness :
    feedAll ([[1, 1, 1, 1, 1, 1, 1, 1, 1, 1, 1, 1],
              [2, 2, 2, 2, 2, 2, 2, 2, 2, 2, 2, 2, 2]] ++
             [idpFrame.take 20, idpFrame.drop 20]) =
      ([], [⟨⟨0x2a, 0, 0, 24, 0, 0x4464⟩, .isDevicePaired⟩], none) :=
  parser_resilience idpFrame ⟨0x2a, 0, 0, 24, 0, 0x4464⟩
    ⟨⟨0x2a, 0, 0, 24, 0, 0x4464⟩, .isDevicePaired⟩
    [[1, 1, 1, 1, 1, 1, 1, 1, 1, 1, 1, 1], [2, 2, 2, 2, 2, 2, 2, 2, 2, 2, 2, 2, 2]]
    [idpFrame.take 20, idpFrame.drop 20]
    (by rfl) (by rfl) (by rfl) (by rfl) (by rfl)
    (by decide) (by decide) (by decide) (by decide) (by decide)

/-- Counterexample for C6 as stated: two 5-byte junk chunks (allowed by
"at most 19 bytes", not starting with the magic) followed by the valid
frame's 20-byte chunks.  The first parse attempt sees only 10 bytes, and
`struct.unpack` of the 24-byte header raises `struct.error` — an exception
the parser does not catch — so no invalid-magic recovery happens and the
frame is never emitted. -/
theorem parser_resilience_cex :
    feedAll ([[0, 0, 0, 0, 0], [0, 0, 0, 0, 0]] ++ [idpFrame.take 20, idpFrame.drop 20]) =
      ([[0, 0, 0, 0, 0], [0, 0, 0, 0, 0]], [], some .structError) := by
  rfl

theorem packedHeader_drop22 (k t s l r c : Nat) :
    (packedHeader k t s l r c).drop 22 = leBytes 2 c := by
  have hB : packedHeader k t s l r c =
      (leBytes 2 MAGIC ++ (leBytes 2 k ++ (leBytes 8 t ++ (leBytes 4 s ++
        (leBytes 2 l ++ leBytes 4 r))))) ++ leBytes 2 c := by
    simp [packedHeader]
  rw [hB]
  exact List.drop_left' (by simp [leBytes_length])

/-- C10: serialization's CRC side effects.  With default arguments,
`Header.to_bytes` overwrites the header's `crc` attribute with the CRC of
the zero-slot header bytes (all other fields unchanged); `BasePacket.to_bytes`
overwrites it with the CRC of the zero-slot header bytes plus the payload;
and `Header.to_bytes(zero_crc=True)` returns the header bytes with a zeroed
CRC slot (bytes 22-23 are zero) and leaves the header — `crc` attribute
included — entirely unchanged. -/
theorem to_bytes_crc_side_effects (h : Header) (payload : List Nat) (hwf : h.wf) :
    (h.to_bytes).2 = { h with crc := _crc16 h.zeroCrcBytes } ∧
    (BasePacket.to_bytes h payload).2 = { h with crc := _crc16 (h.zeroCrcBytes ++ payload) } ∧
    (h.to_bytes true).1 = h.zeroCrcBytes ∧
    ((h.to_bytes true).1).drop 22 = [0, 0] ∧
    (h.to_bytes true).2 = h := by
  refine ⟨?_, ?_, ?_, ?_, ?_⟩
  · unfold Header.to_bytes
    simp
  · unfold BasePacket.to_bytes Header.to_bytes
    simp
  · unfold Header.to_bytes
    simp
  · unfold Header.to_bytes
    simp only [if_pos]
    rw [zeroCrcBytes_eq_packed, packedHeader_drop22]
    decide
  · unfold Header.to_bytes
    simp

/-- Witness for C10 at the IS_DEVICE_PAIRED header with an empty payload:
the computed CRC is 0x4464 in both serializers, and the zero-CRC path is
side-effect-free. -/
theorem to_bytes_crc_side_effects_witness :
    (Header.to_bytes ⟨0x2a, 0, 0, 24, 0, 0⟩).2 = ⟨0x2a, 0, 0, 24, 0, 0x4464⟩ ∧
    (BasePacket.to_bytes ⟨0x2a, 0, 0, 24, 0, 0⟩ []).2 = ⟨0x2a, 0, 0, 24, 0, 0x4464⟩ ∧
    (Header.to_bytes ⟨0x2a, 0, 0, 24, 0, 0⟩ true).1 =
      Header.zeroCrcBytes ⟨0x2a, 0, 0, 24, 0, 0⟩ ∧
    ((Header.to_bytes ⟨0x2a, 0, 0, 24, 0, 0⟩ true).1).drop 22 = [0, 0] ∧
    (Header.to_bytes ⟨0x2a, 0, 0, 24, 0, 0⟩ true).2 = ⟨0x2a, 0, 0, 24, 0, 0⟩ := by
  obtain ⟨h1, h2, h3, h4, h5⟩ :=
    to_bytes_crc_side_effects ⟨0x2a, 0, 0, 24, 0, 0⟩ [] (by decide)
  exact ⟨by rw [h1]; rfl, by rw [h2]; rfl, h3, h4, h5⟩

/-- C1 (amended: the branches are the reverse of the claim's): on an
IS_DEVICE_PAIRED_RESP packet the machine first transmits an ACK with
status 0; if `header.response` equals zero (`not pkt.is_paired()`, the
device not yet paired) it transitions to SS_PENDING and transmits
SESSION_START with a freshly allocated seqno; if `header.response` is
nonzero it transitions to IDP_FAILED and transmits nothing further. -/
theorem idp_response_branches (st : PMState) (hdr : Header) :
    ((st.handle_is_device_paired_res hdr).2).head? =
      some (.tx (.ack hdr.seqno hdr.kind 0)) ∧
    (if hdr.response = 0 then
      (st.handle_is_device_paired_res hdr).1.session_state = .SS_PENDING ∧
      (st.handle_is_device_paired_res hdr).1.seqno = st.seqno + 1 ∧
      (st.handle_is_device_paired_res hdr).2 =
        [.tx (.ack hdr.seqno hdr.kind 0),
         .stateChange st.session_state .SS_PENDING,
         .tx (.sessionStart st.seqno st.host_id st.session_mode st.version_str)]
    else
      (st.handle_is_device_paired_res hdr).1.session_state = .IDP_FAILED ∧
      (st.handle_is_device_paired_res hdr).1.seqno = st.seqno ∧
      (st.handle_is_device_paired_res hdr).2 =
        [.tx (.ack hdr.seqno hdr.kind 0),
         .stateChange st.session_state .IDP_FAILED]) := by
  by_cases h : hdr.response = 0 <;>
    simp [PMState.handle_is_device_paired_res, PMState.send_ack, PMState.enqueuePM,
      PMState.update_session_state, PMState.seqnoAlloc, h]

/-- Witness for C1 (amended): from the freshly initialized machine, a
response packet with `header.response = 0` yields ACK, SS_PENDING and
SESSION_START with seqno 1; `header.response = 1` yields ACK and
IDP_FAILED. -/
theorem idp_response_branches_witness :
    ((pmInit.handle_is_device_paired_res ⟨0x2b, 0, 0, 29, 0, 0⟩).2).head? =
      some (.tx (.ack 0 0x2b 0)) ∧
    (pmInit.handle_is_device_paired_res ⟨0x2b, 0, 0, 29, 0, 0⟩).1.session_state =
      SessionState.SS_PENDING ∧
    (pmInit.handle_is_device_paired_res ⟨0x2b, 0, 0, 29, 0, 0⟩).2 =
      [.tx (.ack 0 0x2b 0),
       .stateChange .NOT_STARTED .SS_PENDING,
       .tx (.sessionStart 1 0x1234 0 [0x39, 0, 0, 0, 0, 0, 0, 0, 0, 0, 0, 0, 0, 0])] := by
  have h := idp_response_branches pmInit ⟨0x2b, 0, 0, 29, 0, 0⟩
  rw [if_pos rfl] at h
  exact ⟨h.1, h.2.1, h.2.2.2⟩

/-- Counterexample for C1 as stated: a response with `header.response = 1`
(nonzero).  The claim says the machine transmits SESSION_START and moves to
SS_PENDING; the code moves to IDP_FAILED and transmits only the ACK. -/
theorem idp_response_branches_cex :
    (pmInit.handle_is_device_paired_res ⟨0x2b, 0, 0, 29, 1, 0⟩).1.session_state =
      SessionState.IDP_FAILED ∧
    (pmInit.handle_is_device_paired_res ⟨0x2b, 0, 0, 29, 1, 0⟩).2 =
      [.tx (.ack 0 0x2b 0), .stateChange .NOT_STARTED .IDP_FAILED] := by
  exact ⟨rfl, rfl⟩

/-- C7 evaluated at the failing input: an ACK with seqno 5 while the
in-flight table is empty.  `handle_ack` runs `if seqno: del
self.packets[seqno]` unconditionally for nonzero seqnos, so the missing key
raises `KeyError` instead of the claimed log-and-discard. -/
theorem handle_ack_unknown_seqno_keyerror :
    pmInit.handle_ack 5 0 0 = (pmInit, [], some PErr.keyError) := by
  rfl

/-- Per-request shape for C9: every request hands out consecutive seqnos
starting at the current counter, advances the counter by that many, and
transmits no non-ACK packet with seqno 0 other than IS_DEVICE_PAIRED. -/
theorem reqStep_shape (st : PMState) (r : Req) (h1 : 1 ≤ st.seqno) :
    (reqStep st r).1.seqno = st.seqno + ((reqStep st r).2.2).length ∧
    (reqStep st r).2.2 = List.range' st.seqno ((reqStep st r).2.2).length ∧
    ((reqStep st r).2.1).all seqnoZeroOnlyIdp = true := by
  have hz : st.seqno ≠ 0 := by omega
  cases r with
  | setLed v cb =>
    simp [reqStep, PMState.set_led_value, PMState.seqnoAlloc, PMState.enqueuePM,
      seqnoZeroOnlyIdp, TxPkt.seqno, hz]
  | devReset reason cb =>
    simp [reqStep, PMState.request_device_reset, PMState.seqnoAlloc, PMState.enqueuePM,
      seqnoZeroOnlyIdp, TxPkt.seqno, hz]
  | storedData cb =>
    simp [reqStep, PMState.request_stored_data, PMState.seqnoAlloc, PMState.enqueuePM,
      seqnoZeroOnlyIdp, TxPkt.seqno, hz]
  | acqStart cb ccb =>
    simp [reqStep, PMState.request_acquisition_start, PMState.seqnoAlloc, PMState.enqueuePM,
      seqnoZeroOnlyIdp, TxPkt.seqno, hz]
  | acqStop cb =>
    simp [reqStep, PMState.request_acquisition_stop, PMState.seqnoAlloc, PMState.enqueuePM,
      seqnoZeroOnlyIdp, TxPkt.seqno, hz]
  | logFile o l cb ccb =>
    simp [reqStep, PMState.request_log_file, PMState.seqnoAlloc, PMState.enqueuePM,
      seqnoZeroOnlyIdp, TxPkt.seqno, hz]
  | idp =>
    simp [reqStep, PMState.request_idp, PMState.update_session_state, PMState.enqueuePM,
      seqnoZeroOnlyIdp, TxPkt.seqno]
  | idpResp hdr =>
    by_cases h : hdr.response = 0 <;>
      simp [reqStep, PMState.handle_is_device_paired_res, PMState.send_ack,
        PMState.update_session_state, PMState.seqnoAlloc, PMState.enqueuePM,
        seqnoZeroOnlyIdp, TxPkt.seqno, h, hz]

theorem runReqs_cons (r : Req) (rs : List Req) (st : PMState) :
    runReqs (r :: rs) st =
      ((runReqs rs (reqStep st r).1).1,
       (reqStep st r).2.1 ++ (runReqs rs (reqStep st r).1).2.1,
       (reqStep st r).2.2 ++ (runReqs rs (reqStep st r).1).2.2) := rfl

theorem seqno_discipline_aux (rs : List Req) :
    ∀ (st : PMState), 1 ≤ st.seqno →
    (runReqs rs st).2.2 = List.range' st.seqno ((runReqs rs st).2.2).length ∧
    (runReqs rs st).1.seqno = st.seqno + ((runReqs rs st).2.2).length ∧
    ((runReqs rs st).2.1).all seqnoZeroOnlyIdp = true := by
  induction rs with
  | nil => intro st h1; simp [runReqs]
  | cons r rs ih =>
    intro st h1
    obtain ⟨s1, s2, s3⟩ := reqStep_shape st r h1
    obtain ⟨i1, i2, i3⟩ := ih (reqStep st r).1 (by omega)
    rw [runReqs_cons]
    rw [s1] at i1 i2
    refine ⟨?_, ?_, ?_⟩
    · rw [List.length_append, s2, i1, List.range'_append_1]
      simp only [List.length_range']
      rw [Nat.add_comm]
    · rw [List.length_append, i2]
      omega
    · rw [List.all_append, s3, i3]
      rfl

/-- C9: over every run of requests against a fresh machine, the seqnos
handed out by the public request methods and the session-start request are
exactly 1, 2, 3, ... in order (strictly increasing from 1), and no
transmitted packet other than an ACK (which echoes the device's seqno) or
the bootstrap IS_DEVICE_PAIRED carries seqno 0. -/
theorem seqno_discipline (rs : List Req) :
    (runReqs rs pmInit).2.2 = List.range' 1 ((runReqs rs pmInit).2.2).length ∧
    ((runReqs rs pmInit).2.1).all seqnoZeroOnlyIdp = true := by
  have h := seqno_discipline_aux rs pmInit (by decide)
  exact ⟨h.1, h.2.2⟩

theorem dropWhile_head_not {α : Type} (p : α → Bool) (l : List α) :
    ∀ hd tl, l.dropWhile p = hd :: tl → p hd = false := by
  induction l with
  | nil => intro hd tl h; simp [List.dropWhile] at h
  | cons a as ih =>
    intro hd tl h
    rw [List.dropWhile_cons] at h
    by_cases hp : p a = true
    · rw [if_pos hp] at h
      exact ih hd tl h
    · rw [if_neg hp] at h
      cases h
      exact eq_false_of_ne_true hp

/-- C8 (amended: only the maximal contiguous run of slices at the head of
the queue bearing the failing seqno is removed — for a queue in which each
packet's slices are contiguous this is the failed packet's remainder):
after a write failure the queue equals `dropWhile (seqno-matches)` of the
old queue; if slices remain, the handler performs exactly one transport
write of the next queued slice, whose seqno differs from the failing one,
and marks a write pending; if none remain it goes idle; the handler's only
outward actions are transport writes — it never invokes a completion
callback. -/
theorem write_failed_purges (st : BandState) (b : List Nat) (q : Nat)
    (rest : List (List Nat × Nat)) (h : st.write_buf = (b, q) :: rest) :
    (Band.characteristic_write_value_failed st).1.write_buf =
      st.write_buf.dropWhile (fun e => e.2 == q) ∧
    (Band.characteristic_write_value_failed st).2.2 = none ∧
    (∀ e ∈ (Band.characteristic_write_value_failed st).2.1, ∃ c, e = BandEvent.write c) ∧
    (∀ hd tl, st.write_buf.dropWhile (fun e => e.2 == q) = hd :: tl →
      hd.2 ≠ q ∧
      (Band.characteristic_write_value_failed st).2.1 = [BandEvent.write hd.1] ∧
      (Band.characteristic_write_value_failed st).1.write_pending = true) ∧
    (st.write_buf.dropWhile (fun e => e.2 == q) = [] →
      (Band.characteristic_write_value_failed st).2.1 = [] ∧
      (Band.characteristic_write_value_failed st).1.write_pending = false) := by
  obtain ⟨wp, wbuf⟩ := st
  change wbuf = (b, q) :: rest at h
  subst h
  have hred : Band.characteristic_write_value_failed ⟨wp, (b, q) :: rest⟩ =
      (if (((b, q) :: rest).dropWhile (fun e => e.2 == q)).isEmpty
       then ({ write_pending := false,
               write_buf := ((b, q) :: rest).dropWhile (fun e => e.2 == q) }, [], none)
       else Band._attempt_transmit
         { write_pending := false,
           write_buf := ((b, q) :: rest).dropWhile (fun e => e.2 == q) }) := rfl
  rw [hred]
  cases hwb : ((b, q) :: rest).dropWhile (fun e => e.2 == q) with
  | nil =>
    refine ⟨rfl, rfl, ?_, ?_, ?_⟩
    · intro e he; simp at he
    · intro hd tl hcontra; exact absurd hcontra (by simp)
    · intro _; exact ⟨rfl, rfl⟩
  | cons hd tl =>
    obtain ⟨hb, hq⟩ := hd
    have hne : ((hb, hq).2 == q) = false :=
      dropWhile_head_not (fun e => e.2 == q) ((b, q) :: rest) (hb, hq) tl hwb
    have hqq : hq ≠ q := by simpa using hne
    refine ⟨rfl, rfl, ?_, ?_, ?_⟩
    · intro e he
      simp [Band._attempt_transmit] at he
      exact ⟨hb, he⟩
    · intro hd' tl' heq
      have : hd' = (hb, hq) := by
        have := heq.symm.trans rfl
        cases heq
        rfl
      subst this
      exact ⟨hqq, rfl, rfl⟩
    · intro hcontra; exact absurd hcontra (by simp)

/-- Witness for C8 (amended): failing the head slice of
`[([9],5), ([8],5), ([7],6)]` purges the two seqno-5 slices and resumes by
writing the seqno-6 slice. -/
theorem write_failed_purges_witness :
    (Band.characteristic_write_value_failed
        ⟨true, [([9], 5), ([8], 5), ([7], 6)]⟩).1.write_buf = [([7], 6)] ∧
    (Band.characteristic_write_value_failed
        ⟨true, [([9], 5), ([8], 5), ([7], 6)]⟩).2.1 = [BandEvent.write [7]] ∧
    (Band.characteristic_write_value_failed
        ⟨true, [([9], 5), ([8], 5), ([7], 6)]⟩).1.write_pending = true ∧
    (Band.characteristic_write_value_failed
        ⟨true, [([9], 5), ([8], 5), ([7], 6)]⟩).2.2 = none := by
  obtain ⟨h1, h2, _, h4, _⟩ := write_failed_purges
    ⟨true, [([9], 5), ([8], 5), ([7], 6)]⟩ [9] 5 [([8], 5), ([7], 6)] rfl
  obtain ⟨_, h5, h6⟩ := h4 ([7], 6) [] (by decide)
  exact ⟨by rw [h1]; rfl, h5, h6, h2⟩

/-- Counterexample for C8 as stated: with transmit queue
`[([0],5), ([1],7), ([2],5)]` and a failure on the head seqno-5 slice, the
handler's head-wise purge stops at the seqno-7 slice, so a slice bearing
the failing seqno 5 remains queued — the claim said every such slice is
removed. -/
theorem write_failed_purges_cex :
    (Band.characteristic_write_value_failed
        ⟨true, [([0], 5), ([1], 7), ([2], 5)]⟩).1.write_buf = [([1], 7), ([2], 5)] ∧
    ([2], 5) ∈ (Band.characteristic_write_value_failed
        ⟨true, [([0], 5), ([1], 7), ([2], 5)]⟩).1.write_buf := by
  decide

end Sleepyband
